import Mathlib

/-!
Verification development for the batch video downloader.

The definitions below are a shallow embedding of the Python sources:
  app/utils/formatters.py        (clean_percent_string)
  app/utils/file_manager.py      (create_zip_file)
  app/core/progress_tracker.py   (ProgressTracker.get_hook, update_overall_progress)
  app/core/downloader.py         (get_download_options, download_multiple_videos)
  app/interface/components/download.py (handle_playlist)

Effects are made explicit: the per-item download is an oracle
`fetch : Nat -> Except String String` (index to output path or error
message), filesystem existence tests are boolean oracles, the
nondeterministic completion order of the thread pool is an explicit
list of indices, and Python floats are modelled as rationals.
-/

namespace YD


/-! ### Rational model of Python float formatting

`round1 q` models the value printed by the Python format `f"{q:.1f}"`
(one decimal place).  Python rounds the underlying binary float to
even on ties; we use round-half-up on exact rationals, which agrees on
every value the claims touch (ties only arise at exact multiples of
1/20 that the orchestrator never produces). -/
def round1 (q : ℚ) : ℚ := ((⌊q * 10 + 1/2⌋ : ℤ) : ℚ) / 10

/-! ### Model of `app/utils/formatters.py : clean_percent_string`

```python
def clean_percent_string(percent_str: str) -> float:
    cleaned = re.sub(r"\x1b\[[0-9;]*m", "", percent_str).strip()
    try:
        return float(cleaned.replace("%", ""))
    except ValueError:
        return 0.0
```

Strings are processed as character lists.  `float` is modelled by
`parseFloat`, covering the plain decimal forms the percent strings
take (optional sign, digits, optional fractional part); on anything
else it returns `none`, matching the `ValueError` branch. -/

def isAnsiBody (c : Char) : Bool := c.isDigit || c = ';'

/-- One pass of `re.sub(r"\x1b\[[0-9;]*m", "", s)`: scan left to right,
removing every non-overlapping match.  Structural recursion on a fuel
argument (initialised to the string length, which always suffices
because every step consumes at least one character). -/
def stripAnsiGo : Nat → List Char → List Char
  | _, [] => []
  | 0, l => l
  | fuel+1, c :: rest =>
    if c = '\x1b' then
      match rest with
      | '[' :: rest2 =>
        match rest2.dropWhile isAnsiBody with
        | 'm' :: rest3 => stripAnsiGo fuel rest3
        | _ => c :: stripAnsiGo fuel rest
      | _ => c :: stripAnsiGo fuel rest
    else c :: stripAnsiGo fuel rest

def stripAnsi (l : List Char) : List Char := stripAnsiGo l.length l

/-- The whitespace characters stripped by Python `str.strip()`
(ASCII range). -/
def isPySpace (c : Char) : Bool :=
  c = ' ' || c = '\t' || c = '\n' || c = '\r' || c = '\x0b' || c = '\x0c'

def pyStrip (l : List Char) : List Char :=
  ((l.dropWhile isPySpace).reverse.dropWhile isPySpace).reverse

/-- `cleaned.replace("%", "")`: Python `str.replace` removes every
occurrence of the pattern, not only a trailing one. -/
def removeAllPct : List Char → List Char
  | [] => []
  | c :: r => if c = '%' then removeAllPct r else c :: removeAllPct r

def digitsVal (l : List Char) : ℕ :=
  l.foldl (fun a c => 10 * a + (c.toNat - '0'.toNat)) 0

/-- Unsigned decimal: digits with an optional fractional part
(`"12"`, `"12."`, `"12.5"`, `".5"`); at least one digit overall. -/
def parseUnsigned (l : List Char) : Option ℚ :=
  let intPart := l.takeWhile Char.isDigit
  let rest := l.drop intPart.length
  match rest with
  | [] => if intPart.isEmpty then none else some (digitsVal intPart)
  | '.' :: frac =>
    if frac.all Char.isDigit && (!intPart.isEmpty || !frac.isEmpty) then
      some ((digitsVal intPart : ℚ) + (digitsVal frac : ℚ) / (10 ^ frac.length))
    else none
  | _ => none

/-- Model of Python `float()` on the shapes percent strings take:
optional sign then an unsigned decimal. -/
def parseFloat : List Char → Option ℚ
  | '-' :: r => (parseUnsigned r).map (fun q => -q)
  | '+' :: r => parseUnsigned r
  | l => parseUnsigned l

/-- Embedding of `clean_percent_string` itself. -/
def clean_percent_string (s : String) : ℚ :=
  let cleaned := pyStrip (stripAnsi s.toList)
  match parseFloat (removeAllPct cleaned) with
  | some q => q
  | none => 0

/-- The transformation described by the claim text: remove ANSI
sequences and *a trailing percent sign* (only), then parse, defaulting
to 0.  Written from the claim, to be compared with the source
embedding. -/
def dropTrailingPct (l : List Char) : List Char :=
  if l.getLast? = some '%' then l.dropLast else l

def cleanPercentClaimed (s : String) : ℚ :=
  let cleaned := pyStrip (stripAnsi s.toList)
  match parseFloat (dropTrailingPct cleaned) with
  | some q => q
  | none => 0

/-- The amended description: remove ANSI sequences and *every* percent
sign, then parse, defaulting to 0.  Percent removal is phrased as a
character filter, independently of the scanning recursion used by the
source embedding. -/
def cleanPercentAmendedSpec (s : String) : ℚ :=
  let cleaned := pyStrip (stripAnsi s.toList)
  match parseFloat (cleaned.filter (fun c => c ≠ '%')) with
  | some q => q
  | none => 0

/-! ### Model of `app/core/progress_tracker.py : ProgressTracker.get_hook`

The tracker keeps, per video id, `{"last_percent": float,
"reported_finished": bool}`.  The hook returned by `get_hook` is a
closure over that entry; since distinct ids never share an entry, the
model is the transition function of a single entry.

```python
def progress_hook(d):
    status = d["status"]
    percent = clean_percent_string(d.get("_percent_str", "0%"))
    ... init entry to {last_percent: 0.0, reported_finished: False} ...
    last_percent = self.progress[video_id]["last_percent"]
    if percent >= last_percent or status == "finished":
        self.progress[video_id]["last_percent"] = max(last_percent, percent)
        progress_data = {..., "percent": 100.0 if status == "finished"
                                          else float(f"{percent:.1f}"), ...}
        if status == "finished" or percent >= 100.0:
            if not self.progress[video_id]["reported_finished"]:
                self.progress[video_id]["reported_finished"] = True
                progress_data["percent"] = 100.0
        if callback:
            callback(progress_data)
```

The forwarded dictionary also carries the id and the raw byte total
unchanged; those passthrough fields are omitted from the model. -/

structure TrackerState where
  lastPercent : ℚ
  reportedFinished : Bool
deriving DecidableEq

structure ProgressUpdate where
  status : String
  percent : ℚ
deriving DecidableEq

def initTracker : TrackerState := ⟨0, false⟩

def progressHookStep (st : TrackerState) (status : String) (percent : ℚ) :
    TrackerState × Option ProgressUpdate :=
  if st.lastPercent ≤ percent ∨ status = "finished" then
    let newLast := max st.lastPercent percent
    let basePercent : ℚ := if status = "finished" then 100 else round1 percent
    if (status = "finished" ∨ 100 ≤ percent) ∧ st.reportedFinished = false then
      (⟨newLast, true⟩, some ⟨status, 100⟩)
    else
      (⟨newLast, st.reportedFinished⟩, some ⟨status, basePercent⟩)
  else (st, none)

/-- The hook as the code exposes it: status plus the raw
`_percent_str` (default `"0%"` is applied by the caller of the model). -/
def progress_hook (st : TrackerState) (status : String) (percentStr : String) :
    TrackerState × Option ProgressUpdate :=
  progressHookStep st status (clean_percent_string percentStr)

/-- State after a sequence of events for one id, starting from the
freshly initialised entry. -/
def runHook (events : List (String × ℚ)) : TrackerState :=
  events.foldl (fun st e => (progressHookStep st e.1 e.2).1) initTracker

/-! ### Model of `app/core/downloader.py : download_multiple_videos`

The orchestrator submits every element of `video_list` to a thread
pool and collects results with `as_completed`, so both the worker
bodies and the result collection run in an arbitrary completion
order.  That order is made explicit as a list of indices `order`
(running each claim over all permutations of `range videos.length`
covers every schedule).  The per-item download
(`download_single_video`, network plus engine) is the oracle
`fetch : index to Except errorMessage outputPath`;
`download_single_with_progress` wraps it exactly as the code does:
success appends the path and, inside the lock, increments the shared
counter and publishes the aggregate snapshot; any exception is
swallowed into an error string, with no publish and no increment. -/

structure VideoInfo where
  id : Option String
  title : Option String
deriving DecidableEq

/-- `video_info.get("title", f"Video_{video_info.get('id', 'Unknown')}")` -/
def titleOf (v : VideoInfo) : String :=
  v.title.getD ("Video_" ++ v.id.getD "Unknown")

/-- The aggregate snapshot built by
`app/core/progress_tracker.py : update_overall_progress`
(the constant field `id = "overall"` and the byte-total passthrough
are omitted). -/
structure OverallProgress where
  status : String
  percent : ℚ
  currentVideo : ℕ
  totalVideos : ℕ
  currentTitle : String
deriving DecidableEq

/-- `float(f"{(completed_count / total_videos) * 100:.1f}")` -/
def pct (completed total : ℕ) : ℚ :=
  round1 ((completed : ℚ) / (total : ℚ) * 100)

def update_overall_progress (completed total : ℕ) (title : String) : OverallProgress :=
  { status := "downloading", percent := pct completed total,
    currentVideo := completed, totalVideos := total, currentTitle := title }

def okPath : Except String String → Option String
  | .ok p => some p
  | .error _ => none

def videoAt (videos : List VideoInfo) (i : ℕ) : VideoInfo :=
  (videos.get? i).getD ⟨none, none⟩

/-- Outcome of one worker body: the pair it returns to the collector,
the shared counter after it ran, and the snapshot it published (if
any). -/
structure ItemStep where
  file : Option String
  error : Option String
  completed : ℕ
  publish : Option OverallProgress

def download_single_with_progress (fetch : ℕ → Except String String)
    (videos : List VideoInfo) (completed : ℕ) (i : ℕ) : ItemStep :=
  match fetch i with
  | .ok p =>
    { file := some p, error := none, completed := completed + 1,
      publish := some (update_overall_progress (completed + 1) videos.length
        (titleOf (videoAt videos i))) }
  | .error e =>
    { file := none,
      error := some ("Error downloading " ++ titleOf (videoAt videos i) ++ ": " ++ e),
      completed := completed, publish := none }

structure BatchState where
  completed : ℕ
  files : List String
  errors : List String
  published : List OverallProgress
deriving DecidableEq

def batchStep (fetch : ℕ → Except String String) (videos : List VideoInfo)
    (st : BatchState) (i : ℕ) : BatchState :=
  let r := download_single_with_progress fetch videos st.completed i
  { completed := r.completed,
    files := st.files ++ r.file.toList,
    errors := st.errors ++ r.error.toList,
    published := st.published ++ r.publish.toList }

def initBatch : BatchState := ⟨0, [], [], []⟩

/-- State of `completed_count`, `downloaded_files`, `errors` and the
published aggregate snapshots after all items have completed, in
completion order `order`. -/
def runBatch (fetch : ℕ → Except String String) (videos : List VideoInfo)
    (order : List ℕ) : BatchState :=
  order.foldl (batchStep fetch videos) initBatch

/-- `f"playlist_{timestamp}.zip"` -/
def zipName (timestamp : String) : String := "playlist_" ++ timestamp ++ ".zip"

/-- The message built at the zero-success exit:
`"No videos were successfully downloaded"` plus, when any error was
collected, `". Errors: "` and the first three error strings joined by
`"; "`. -/
def noSuccessMsg (errors : List String) : String :=
  "No videos were successfully downloaded" ++
    (if errors.isEmpty then "" else ". Errors: " ++ String.intercalate "; " (errors.take 3))

/-- Result of one whole `download_multiple_videos` call together with
the filesystem effects the claims track: whether the per-batch temp
directory was created, whether it still exists when the call ends,
and whether the final archive (written into `output_dir`, outside the
temp directory) exists when the call ends. -/
structure MultiOutcome where
  result : Except String String
  tempCreated : Bool
  tempExistsAtEnd : Bool
  zipExistsAtEnd : Bool
  published : List OverallProgress

/-- `zipErr = none` means `create_zip_file` succeeds; `some e` means
it raises with message `e` (the archive is then treated as not
produced).  Control flow of the source: the empty-list check precedes
the temp directory creation; the zero-success raise and a packaging
raise are both caught by the outer handler, which removes the temp
directory and re-raises wrapped in `"Error in batch download: "`; the
success path removes the temp directory after packaging and returns
the archive path. -/
def download_multiple_videos (fetch : ℕ → Except String String)
    (videos : List VideoInfo) (order : List ℕ) (zipErr : Option String)
    (outputDir timestamp : String) : MultiOutcome :=
  if videos.isEmpty then
    { result := .error "No videos to download",
      tempCreated := false, tempExistsAtEnd := false,
      zipExistsAtEnd := false, published := [] }
  else
    let st := runBatch fetch videos order
    if st.files.isEmpty then
      { result := .error ("Error in batch download: " ++ noSuccessMsg st.errors),
        tempCreated := true, tempExistsAtEnd := false,
        zipExistsAtEnd := false, published := st.published }
    else
      match zipErr with
      | none =>
        { result := .ok (outputDir ++ "/" ++ zipName timestamp),
          tempCreated := true, tempExistsAtEnd := false,
          zipExistsAtEnd := true, published := st.published }
      | some e =>
        { result := .error ("Error in batch download: " ++ e),
          tempCreated := true, tempExistsAtEnd := false,
          zipExistsAtEnd := false, published := st.published }

/-! Closed forms for the fields of `runBatch`. -/

def itemError (videos : List VideoInfo) (i : ℕ) : Except String String → Option String
  | .ok _ => none
  | .error e => some ("Error downloading " ++ titleOf (videoAt videos i) ++ ": " ++ e)

def isSuccess (fetch : ℕ → Except String String) (i : ℕ) : Bool :=
  (okPath (fetch i)).isSome

/-- The snapshots published by the workers, given the counter value
`c` at the point the remaining completions start. -/
def publishSeq (fetch : ℕ → Except String String) (videos : List VideoInfo) :
    ℕ → List ℕ → List OverallProgress
  | _, [] => []
  | c, i :: rest =>
    match fetch i with
    | .ok _ =>
      update_overall_progress (c + 1) videos.length (titleOf (videoAt videos i)) ::
        publishSeq fetch videos (c + 1) rest
    | .error _ => publishSeq fetch videos c rest

/-- A two-item batch whose items both succeed (fetch of index 0
yields `"pathA"`, of index 1 `"pathB"`). -/
def videosC1 : List VideoInfo := [⟨some "a", some "A"⟩, ⟨some "b", some "B"⟩]

def fetchC1 : ℕ → Except String String
  | 0 => .ok "pathA"
  | _ => .ok "pathB"

/-- A four-item batch; with `fetchC2`, items 0, 1 and 2 succeed and
item 3 fails with a network error. -/
def videosC2 : List VideoInfo :=
  [⟨some "a", some "A"⟩, ⟨some "b", some "B"⟩, ⟨some "c", some "C"⟩, ⟨some "d", some "D"⟩]

def fetchC2 : ℕ → Except String String
  | 0 => .ok "p0"
  | 1 => .ok "p1"
  | 2 => .ok "p2"
  | _ => .error "network error"

/-! ### Model of `app/interface/components/download.py : handle_playlist`

```python
videos = playlist_info.get("videos", [])
if selected_videos:
    videos = [videos[i] for i in selected_videos if i < len(videos)]
if not videos:
    return None, "No videos selected or found"
if len(videos) == 1:
    file_path = download_single_video(videos[0], ...)
else:
    file_path = download_multiple_videos(videos, ...)
```

An empty selection list models both `None` and `[]` (both falsy, so
no filtering happens); the single-item download is the oracle
`fetchSingle`. `download_content` lines 75-103 contain the same
dispatch. -/

def selectVideos (videos : List VideoInfo) (sel : List ℕ) : List VideoInfo :=
  if sel.isEmpty then videos else sel.filterMap (fun i => videos.get? i)

structure PlaylistOutcome where
  usedPackager : Bool
  result : Except String String

def handle_playlist (fetchSingle : VideoInfo → Except String String)
    (fetch : ℕ → Except String String) (order : List ℕ) (zipErr : Option String)
    (outputDir timestamp : String) (videos : List VideoInfo) (sel : List ℕ) :
    PlaylistOutcome :=
  match selectVideos videos sel with
  | [] => ⟨false, .error "No videos selected or found"⟩
  | [v] => ⟨false, fetchSingle v⟩
  | v :: w :: rest =>
    ⟨true, (download_multiple_videos fetch (v :: w :: rest) order zipErr
        outputDir timestamp).result⟩

def fetchSingleW : VideoInfo → Except String String :=
  fun v => .ok (titleOf v)

/-! ### Model of `app/utils/file_manager.py : create_zip_file`

```python
with zipfile.ZipFile(output_path, "w", zipfile.ZIP_DEFLATED) as zipf:
    for file_path in file_paths:
        if os.path.exists(file_path):
            arcname = os.path.basename(file_path)
            zipf.write(file_path, arcname)
        else:
            logger.warning(...)
```

A filesystem path is modelled structurally as its directory
components plus base name, so `os.path.basename` is the `base` field
and "flat entry, no directory components" is visible in the type;
`os.path.exists` is a boolean oracle.  The archive is modelled by its
ordered list of entry names. -/

structure MediaPath where
  dirs : List String
  base : String
deriving DecidableEq

/-- `os.path.basename` -/
def basename (p : MediaPath) : String := p.base

def create_zip_file (pathExists : MediaPath → Bool) (file_paths : List MediaPath) :
    List String :=
  file_paths.foldl
    (fun entries p => if pathExists p then entries ++ [basename p] else entries) []

/-! ### Model of `app/core/downloader.py : get_download_options`

Validation, the FFmpeg-location probe (environment variables, then a
PATH lookup), and the two mode branches:

```python
if format_type not in CONFIG["supported_formats"]: raise ValueError(...)
if format_type == "audio" and (audio_format is None or
        audio_format not in CONFIG["supported_audio_formats"]): raise ValueError(...)
base_options = {"outtmpl": ..., "quiet": True, "embedthumbnail": True,
                "nooverwrites": True, "noprogress": True}
... progress_hooks, ffmpeg_location ...
if format_type == "video":
    format_str = "bestvideo+bestaudio" if video_quality in (None, "best") else
        f"bestvideo[height<={int(video_quality.replace('p',''))}]+bestaudio"
    base_options.update({"format": format_str, "merge_output_format": "mkv"})
elif format_type == "audio":
    base_options.update({"format": "bestaudio/best",
        "postprocessors": [{"key": "FFmpegExtractAudio",
            "preferredcodec": audio_format, "preferredquality": "0"}],
        "extractaudio": True, "audioformat": audio_format})
```

The environment and filesystem reads are a record of oracles; the
missing `format` key of the pre-update dictionary is modelled as the
empty string (both branches overwrite it before returning).
`int(...)` is modelled on the strings it receives here: all-digit
strings (sign and surrounding whitespace forms do not occur). -/

def supported_formats : List String := ["video", "audio"]

def supported_audio_formats : List String := ["mp3", "m4a", "wav", "flac", "aac"]

structure FsEnv where
  ffmpegBinary : Option String
  ffmpegBinaryExists : Bool
  ffprobeBinary : Option String
  ffprobeBinaryExists : Bool
  whichFfmpeg : Option String

/-- `os.path.dirname` -/
def dirname (s : String) : String :=
  String.intercalate "/" ((s.splitOn "/").dropLast)

def resolveFfmpegLocation (env : FsEnv) : Option String :=
  match env.ffmpegBinary, env.ffmpegBinaryExists with
  | some b, true => some (dirname b)
  | _, _ =>
    match env.ffprobeBinary, env.ffprobeBinaryExists with
    | some pr, true => some (dirname pr)
    | _, _ => env.whichFfmpeg.map dirname

structure YdlOptions where
  outtmpl : String
  quiet : Bool
  embedthumbnail : Bool
  nooverwrites : Bool
  noprogress : Bool
  hasProgressHook : Bool
  ffmpegLocation : Option String
  format : String
  mergeOutputFormat : Option String
  extractAudioCodec : Option String
  extractaudio : Bool
  audioformat : Option String
deriving DecidableEq

def audioFormatInvalid : Option String → Bool
  | none => true
  | some a => !(supported_audio_formats.contains a)

def optionStr : Option String → String
  | none => "None"
  | some a => a

/-- `int(video_quality.replace('p', ''))` on the digit strings used
here. -/
def parseQualityHeight (vq : String) : Option ℕ :=
  let digits := vq.toList.filter (fun c => c ≠ 'p')
  if !digits.isEmpty && digits.all Char.isDigit then some (digitsVal digits) else none

def get_download_options (format_type : String) (audio_format : Option String)
    (video_quality : Option String) (output_template : String) (hasHook : Bool)
    (env : FsEnv) : Except String YdlOptions :=
  if !(supported_formats.contains format_type) then
    .error ("Unsupported format: " ++ format_type)
  else if format_type = "audio" ∧ audioFormatInvalid audio_format then
    .error ("Unsupported audio format: " ++ optionStr audio_format)
  else
    let base : YdlOptions :=
      { outtmpl := output_template, quiet := true, embedthumbnail := true,
        nooverwrites := true, noprogress := true, hasProgressHook := hasHook,
        ffmpegLocation := resolveFfmpegLocation env,
        format := "", mergeOutputFormat := none, extractAudioCodec := none,
        extractaudio := false, audioformat := none }
    if format_type = "video" then
      if video_quality = none ∨ video_quality = some "best" then
        .ok { base with
              format := "bestvideo+bestaudio",
              mergeOutputFormat := some "mkv" }
      else
        match parseQualityHeight (optionStr video_quality) with
        | some h =>
          .ok { base with
                format := "bestvideo[height<=" ++ toString h ++ "]+bestaudio",
                mergeOutputFormat := some "mkv" }
        | none =>
          .error ("invalid literal for int(): " ++ optionStr video_quality)
    else
      .ok { base with
            format := "bestaudio/best",
            extractAudioCodec := audio_format,
            extractaudio := true,
            audioformat := audio_format }

def envW : FsEnv := ⟨none, false, none, false, some "/usr/bin/ffmpeg"⟩

/-! ## Theorems -/

theorem round1_mono {q r : ℚ} (h : q ≤ r) : round1 q ≤ round1 r := by
  unfold round1
  have h10 : q * 10 + 1/2 ≤ r * 10 + 1/2 := by nlinarith
  have := Int.floor_mono h10
  have hcast : ((⌊q * 10 + 1/2⌋ : ℤ) : ℚ) ≤ ((⌊r * 10 + 1/2⌋ : ℤ) : ℚ) := by
    exact_mod_cast this
  linarith

theorem removeAllPct_eq_filter (l : List Char) :
    removeAllPct l = l.filter (fun c => c ≠ '%') := by
  induction l with
  | nil => rfl
  | cons c r ih =>
    by_cases h : c = '%'
    · simp [removeAllPct, h, List.filter, ih]
    · simp [removeAllPct, h, List.filter, ih]

/-- C10, counterexample.  On the input `"%5"` the code removes the
leading percent sign as well and parses `"5"`, returning `5.0`; the
claimed description (remove only a trailing percent sign) leaves
`"%5"`, which does not parse, and would return `0.0`. -/
theorem C10_counterexample :
    clean_percent_string "%5" = 5 ∧ cleanPercentClaimed "%5" = 0 ∧
      clean_percent_string "%5" ≠ cleanPercentClaimed "%5" := by
  have h1 : clean_percent_string "%5" = 5 := by
    simp +decide [clean_percent_string, stripAnsi, stripAnsiGo, pyStrip, isPySpace,
      removeAllPct, parseFloat, parseUnsigned, digitsVal]
  have h2 : cleanPercentClaimed "%5" = 0 := by
    simp +decide [cleanPercentClaimed, stripAnsi, stripAnsiGo, pyStrip, isPySpace,
      dropTrailingPct, parseFloat, parseUnsigned, digitsVal]
  refine ⟨h1, h2, ?_⟩
  rw [h1, h2]
  norm_num

/-- C10, amended: for every input string, `clean_percent_string`
returns a rational and never fails: it removes ANSI color-control
sequences, surrounding whitespace, and every percent sign (not only a
trailing one), and any remaining text that does not parse as a float
yields exactly 0. -/
theorem C10_amended (s : String) :
    clean_percent_string s = cleanPercentAmendedSpec s ∧
      (parseFloat ((pyStrip (stripAnsi s.toList)).filter (fun c => c ≠ '%')) = none →
        clean_percent_string s = 0) := by
  have h : clean_percent_string s = cleanPercentAmendedSpec s := by
    simp only [clean_percent_string, cleanPercentAmendedSpec, removeAllPct_eq_filter]
  refine ⟨h, fun hn => ?_⟩
  rw [h]
  simp only [cleanPercentAmendedSpec, hn]

/-- Witness for the amended C10 theorem at the concrete engine-style
input `"\x1b[0;94m 42.7%\x1b[0m"`. -/
theorem C10_amended_witness :
    clean_percent_string "\x1b[0;94m 42.7%\x1b[0m" =
        cleanPercentAmendedSpec "\x1b[0;94m 42.7%\x1b[0m" ∧
      clean_percent_string "\x1b[0;94m 42.7%\x1b[0m" = 427/10 := by
  refine ⟨(C10_amended "\x1b[0;94m 42.7%\x1b[0m").1, ?_⟩
  simp +decide [clean_percent_string, stripAnsi, stripAnsiGo, pyStrip, isPySpace,
    isAnsiBody, removeAllPct, parseFloat, parseUnsigned, digitsVal]
  norm_num

theorem hookStep_preserves_inv (st : TrackerState) (status : String) (percent : ℚ)
    (h : st.reportedFinished = false → st.lastPercent < 100) :
    (progressHookStep st status percent).1.reportedFinished = false →
      (progressHookStep st status percent).1.lastPercent < 100 := by
  unfold progressHookStep
  by_cases hfwd : st.lastPercent ≤ percent ∨ status = "finished"
  · by_cases hpin : (status = "finished" ∨ 100 ≤ percent) ∧ st.reportedFinished = false
    · simp [hfwd, hpin]
    · simp only [hfwd, if_pos, hpin, if_neg, not_false_iff]
      intro hrep
      have hlt := h hrep
      have hnp : ¬ (status = "finished" ∨ 100 ≤ percent) := by
        intro hc; exact hpin ⟨hc, hrep⟩
      push_neg at hnp
      simp only [max_lt_iff]
      exact ⟨hlt, hnp.2⟩
  · simp only [hfwd, if_neg, not_false_iff]
    exact h

theorem runHook_inv (events : List (String × ℚ)) :
    (runHook events).reportedFinished = false → (runHook events).lastPercent < 100 := by
  have main : ∀ (l : List (String × ℚ)) (st : TrackerState),
      (st.reportedFinished = false → st.lastPercent < 100) →
      ((l.foldl (fun s e => (progressHookStep s e.1 e.2).1) st).reportedFinished = false →
        (l.foldl (fun s e => (progressHookStep s e.1 e.2).1) st).lastPercent < 100) := by
    intro l
    induction l with
    | nil => intro st h; exact h
    | cons e r ih =>
      intro st h
      exact ih _ (hookStep_preserves_inv st e.1 e.2 h)
  refine main events initTracker ?_
  intro
  norm_num [initTracker]

/-- C6: the per-item hook forwards an update exactly when the new
percent is at least the last recorded percent for the id or the
status is `"finished"`; the recorded percent never decreases (a lower
percent without `"finished"` is ignored entirely); the first time
`"finished"` or a percent of at least 100 is seen, the forwarded
percent is pinned to exactly 100 and the one-time completed flag
flips, and once the flag is set it never resets, so later duplicate
finished events cannot re-fire it; every finished event forwards
percent 100; and from the initial entry, while the flag is unset the
recorded percent stays below 100, so the first qualifying event always
passes the forwarding test. -/
theorem C6_hook_monotone_pin (st : TrackerState) (status : String) (percent : ℚ) :
    ((progressHookStep st status percent).2 ≠ none ↔
        (st.lastPercent ≤ percent ∨ status = "finished")) ∧
      st.lastPercent ≤ (progressHookStep st status percent).1.lastPercent ∧
      (¬ (st.lastPercent ≤ percent ∨ status = "finished") →
        (progressHookStep st status percent).1 = st) ∧
      (st.reportedFinished = false → (status = "finished" ∨ 100 ≤ percent) →
        (st.lastPercent ≤ percent ∨ status = "finished") →
        (progressHookStep st status percent).2 = some ⟨status, 100⟩ ∧
          (progressHookStep st status percent).1.reportedFinished = true) ∧
      (st.reportedFinished = true →
        (progressHookStep st status percent).1.reportedFinished = true) ∧
      (status = "finished" →
        (progressHookStep st status percent).2 = some ⟨status, 100⟩) ∧
      (∀ events : List (String × ℚ),
        (runHook events).reportedFinished = false → (runHook events).lastPercent < 100) := by
  unfold progressHookStep
  by_cases hfwd : st.lastPercent ≤ percent ∨ status = "finished"
  · by_cases hpin : (status = "finished" ∨ 100 ≤ percent) ∧ st.reportedFinished = false
    · refine ⟨by simp [hfwd, hpin], ?_, ?_, ?_, ?_, ?_, runHook_inv⟩
      · simp [hfwd, hpin, le_max_left]
      · intro hc; exact absurd hfwd hc
      · intro _ _ _; simp [hfwd, hpin]
      · intro hrep; rw [hrep] at hpin; simp at hpin
      · intro hs; simp [hfwd, hpin]
    · refine ⟨by simp [hfwd, hpin], ?_, ?_, ?_, ?_, ?_, runHook_inv⟩
      · simp [hfwd, hpin, le_max_left]
      · intro hc; exact absurd hfwd hc
      · intro hrep hq _; exact absurd ⟨hq, hrep⟩ hpin
      · intro hrep; simp [hfwd, hpin, hrep]
      · intro hs
        have hrep : st.reportedFinished = true := by
          by_contra hc
          exact hpin ⟨Or.inl hs, by simpa using hc⟩
        simp [hfwd, hpin, hs, hrep]
  · refine ⟨by simp [hfwd], ?_, ?_, ?_, ?_, ?_, runHook_inv⟩
    · simp [hfwd]
    · intro _; simp [hfwd]
    · intro _ _ hc; exact absurd hc hfwd
    · intro hrep; simp [hfwd, hrep]
    · intro hs; exact absurd (Or.inr hs) hfwd

/-- Witness for C6 at concrete inputs: a finished event at recorded
percent 50 with raw percent 30 forwards exactly 100 and flips the
flag; a later lower percent without finished forwards nothing. -/
theorem C6_witness :
    (progressHookStep ⟨50, false⟩ "finished" 30).2 = some ⟨"finished", 100⟩ ∧
      (progressHookStep ⟨50, false⟩ "finished" 30).1.reportedFinished = true ∧
      (progressHookStep ⟨50, false⟩ "downloading" 40).2 = none := by
  have h1 := (C6_hook_monotone_pin ⟨50, false⟩ "finished" 30).2.2.2.1 rfl
    (Or.inl rfl) (Or.inr rfl)
  have h2 := (C6_hook_monotone_pin ⟨50, false⟩ "downloading" 40).1
  refine ⟨h1.1, h1.2, ?_⟩
  by_contra hne
  rcases h2.mp hne with h | h
  · norm_num at h
  · simp at h

theorem foldl_batchStep (fetch : ℕ → Except String String) (videos : List VideoInfo)
    (order : List ℕ) (st : BatchState) :
    order.foldl (batchStep fetch videos) st =
      { completed := st.completed + order.countP (isSuccess fetch),
        files := st.files ++ order.filterMap (fun i => okPath (fetch i)),
        errors := st.errors ++ order.filterMap (fun i => itemError videos i (fetch i)),
        published := st.published ++ publishSeq fetch videos st.completed order } := by
  induction order generalizing st with
  | nil => simp [publishSeq]
  | cons i rest ih =>
    rcases hfi : fetch i with e | p
    · simp only [List.foldl_cons]
      rw [show batchStep fetch videos st i =
          { completed := st.completed,
            files := st.files,
            errors := st.errors ++
              ["Error downloading " ++ titleOf (videoAt videos i) ++ ": " ++ e],
            published := st.published } by
        simp [batchStep, download_single_with_progress, hfi]]
      rw [ih]
      simp [List.countP_cons, List.filterMap_cons, publishSeq, hfi, isSuccess, okPath,
        itemError]
    · simp only [List.foldl_cons]
      rw [show batchStep fetch videos st i =
          { completed := st.completed + 1,
            files := st.files ++ [p],
            errors := st.errors,
            published := st.published ++
              [update_overall_progress (st.completed + 1) videos.length
                (titleOf (videoAt videos i))] } by
        simp [batchStep, download_single_with_progress, hfi]]
      rw [ih]
      simp only [List.countP_cons, List.filterMap_cons, publishSeq, hfi, isSuccess, okPath,
        itemError, Option.isSome_some, if_true, List.append_assoc, List.singleton_append,
        List.append_nil]
      congr 1
      omega

theorem runBatch_spec (fetch : ℕ → Except String String) (videos : List VideoInfo)
    (order : List ℕ) :
    runBatch fetch videos order =
      { completed := order.countP (isSuccess fetch),
        files := order.filterMap (fun i => okPath (fetch i)),
        errors := order.filterMap (fun i => itemError videos i (fetch i)),
        published := publishSeq fetch videos 0 order } := by
  simp [runBatch, initBatch, foldl_batchStep]

theorem length_filterMap_eq_countP {α β : Type} (f : α → Option β) (l : List α) :
    (l.filterMap f).length = l.countP (fun a => (f a).isSome) := by
  induction l with
  | nil => rfl
  | cons a r ih =>
    rcases ha : f a with _ | b <;>
      simp [List.filterMap_cons, ha, List.countP_cons, ih]

theorem pct_mono {a b n : ℕ} (h : a ≤ b) : pct a n ≤ pct b n := by
  unfold pct
  apply round1_mono
  have hab : (a : ℚ) ≤ b := by exact_mod_cast h
  rcases Nat.eq_zero_or_pos n with hn | hn
  · subst hn; simp
  · have hn0 : (0 : ℚ) < n := by exact_mod_cast hn
    have := (div_le_div_iff_of_pos_right hn0).mpr hab
    nlinarith

theorem pct_self {n : ℕ} (h : n ≠ 0) : pct n n = 100 := by
  unfold pct
  have hn : (n : ℚ) ≠ 0 := Nat.cast_ne_zero.mpr h
  rw [div_self hn, one_mul]
  unfold round1
  norm_num

theorem publishSeq_map_percent (fetch : ℕ → Except String String)
    (videos : List VideoInfo) (order : List ℕ) :
    ∀ c, (publishSeq fetch videos c order).map (fun p => p.percent) =
      (List.range (order.countP (isSuccess fetch))).map
        (fun k => pct (c + k + 1) videos.length) := by
  induction order with
  | nil => intro c; rfl
  | cons i rest ih =>
    intro c
    rcases hfi : fetch i with e | p
    · simp only [publishSeq, hfi, List.countP_cons, isSuccess, okPath,
        Option.isSome_none, Bool.false_eq_true, if_false, Nat.add_zero]
      exact ih c
    · simp only [publishSeq, hfi, List.map_cons, List.countP_cons, isSuccess, okPath,
        Option.isSome_some, if_true, update_overall_progress]
      rw [ih (c + 1), List.range_succ_eq_map]
      simp only [List.map_cons, List.map_map, Nat.add_zero]
      congr 1
      apply List.map_congr_left
      intro k _
      simp only [Function.comp_apply]
      congr 1
      omega

theorem publishSeq_percent_chain (fetch : ℕ → Except String String)
    (videos : List VideoInfo) (order : List ℕ) (c : ℕ) :
    List.Chain' (· ≤ ·) ((publishSeq fetch videos c order).map (fun p => p.percent)) := by
  rw [publishSeq_map_percent]
  apply List.Pairwise.chain'
  exact (List.pairwise_lt_range _).map _
    (fun a b hab => pct_mono (by omega))

/-- C1, counterexample: a batch of two items that both succeed, with
completion order `[1, 0]` (item 1 finishes first).  The collected
`downloaded_files` list is in completion order `["pathB", "pathA"]`,
not in the original input order `["pathA", "pathB"]`: the claimed
input-order property fails even though the completion order is a
permutation of the index range and every fetch succeeds. -/
theorem C1_counterexample :
    ([1, 0].Perm (List.range videosC1.length)) ∧
      (∀ i ∈ [1, 0], isSuccess fetchC1 i) ∧
      (runBatch fetchC1 videosC1 [1, 0]).files = ["pathB", "pathA"] ∧
      (runBatch fetchC1 videosC1 [1, 0]).files ≠ ["pathA", "pathB"] := by
  refine ⟨by decide, by decide, ?_, ?_⟩ <;>
    simp [runBatch_spec, fetchC1, okPath]

/-- C1, amended: the orchestrator collects results with
`as_completed`, so `succeededPaths` and `failures` are in completion
order, not input order.  For every batch in which each item is
attempted exactly once and every fetch succeeds, `succeededPaths` has
length equal to the number of items and `failures` is empty; the
entries themselves are the per-item output paths listed in completion
order. -/
theorem C1_amended (fetch : ℕ → Except String String) (videos : List VideoInfo)
    (order : List ℕ) :
    (runBatch fetch videos order).files = order.filterMap (fun i => okPath (fetch i)) ∧
      (order.Perm (List.range videos.length) →
        (∀ i ∈ order, isSuccess fetch i) →
        (runBatch fetch videos order).files.length = videos.length ∧
          (runBatch fetch videos order).errors = []) := by
  refine ⟨by rw [runBatch_spec], fun hperm hsucc => ⟨?_, ?_⟩⟩
  · rw [runBatch_spec]
    have h1 : (order.filterMap (fun i => okPath (fetch i))).length
        = order.countP (isSuccess fetch) := by
      rw [length_filterMap_eq_countP]
      rfl
    have h2 : order.countP (isSuccess fetch) = order.length :=
      List.countP_eq_length.mpr hsucc
    have h3 : order.length = videos.length := by
      simpa using hperm.length_eq
    simp only [h1, h2, h3]
  · rw [runBatch_spec]
    apply List.filterMap_eq_nil_iff.mpr
    intro i hi
    have := hsucc i hi
    unfold isSuccess okPath at this
    unfold itemError
    rcases hfi : fetch i with e | p
    · rw [hfi] at this; simp at this
    · rfl

/-- Witness for the amended C1 theorem: both items succeed, the batch
is a permutation of the index range, and the collected paths have
length 2 with no failures. -/
theorem C1_amended_witness :
    (runBatch fetchC1 videosC1 [1, 0]).files.length = videosC1.length ∧
      (runBatch fetchC1 videosC1 [1, 0]).errors = [] :=
  (C1_amended fetchC1 videosC1 [1, 0]).2 (by decide) (by decide)

/-- C2, counterexample: a 4-item batch in which item 3 fails.  Only
the three successful completions increment the counter and publish an
aggregate snapshot, so the published percent sequence is
`[25, 50, 75]` -- three snapshots for four completed items, and 100 is
never published -- contradicting the claim that a snapshot is
published after every completion, covering 25, 50, 75, 100. -/
theorem C2_counterexample :
    ([0, 1, 2, 3].Perm (List.range videosC2.length)) ∧
      (runBatch fetchC2 videosC2 [0, 1, 2, 3]).published.map (fun p => p.percent)
        = [25, 50, 75] ∧
      (runBatch fetchC2 videosC2 [0, 1, 2, 3]).published.length = 3 ∧
      ¬ (100 ∈ (runBatch fetchC2 videosC2 [0, 1, 2, 3]).published.map
        (fun p => p.percent)) := by
  have hmap : (runBatch fetchC2 videosC2 [0, 1, 2, 3]).published.map (fun p => p.percent)
      = [25, 50, 75] := by
    rw [runBatch_spec]
    simp only [publishSeq, fetchC2, update_overall_progress, pct, videosC2]
    norm_num [round1]
  refine ⟨by decide, hmap, ?_, ?_⟩
  · have := congrArg List.length hmap
    simpa using this
  · rw [hmap]
    norm_num

/-- C2, amended: the orchestrator publishes an aggregate snapshot
after each *successful* completion only (a failed item publishes
nothing and does not advance the counter); each snapshot is produced
in the same critical section as the counter increment and carries
percent `100 * succeededSoFar / total` (rounded to one decimal), so
the published percents are `100*1/n, 100*2/n, ...` in order -- a
non-decreasing sequence -- and when every item of the batch succeeds
the sequence ends at exactly 100, regardless of completion order. -/
theorem C2_amended (fetch : ℕ → Except String String) (videos : List VideoInfo)
    (order : List ℕ) :
    (runBatch fetch videos order).published.map (fun p => p.percent)
        = (List.range (order.countP (isSuccess fetch))).map
          (fun k => pct (k + 1) videos.length) ∧
      List.Chain' (· ≤ ·)
        ((runBatch fetch videos order).published.map (fun p => p.percent)) ∧
      (order.Perm (List.range videos.length) →
        (∀ i ∈ order, isSuccess fetch i) →
        videos ≠ [] →
        ((runBatch fetch videos order).published.map (fun p => p.percent)).getLast?
          = some 100) := by
  have hpub : (runBatch fetch videos order).published
      = publishSeq fetch videos 0 order := by
    rw [runBatch_spec]
  refine ⟨?_, ?_, ?_⟩
  · rw [hpub, publishSeq_map_percent]
    apply List.map_congr_left
    intro k _
    congr 1
    omega
  · rw [hpub]
    exact publishSeq_percent_chain fetch videos order 0
  · intro hperm hsucc hne
    have h2 : order.countP (isSuccess fetch) = order.length :=
      List.countP_eq_length.mpr hsucc
    have h3 : order.length = videos.length := by
      simpa using hperm.length_eq
    rw [hpub, publishSeq_map_percent, h2, h3]
    rcases hv : videos.length with _ | m
    · exact absurd (List.length_eq_zero.mp hv) hne
    · rw [List.range_succ, List.map_append]
      simp only [List.map_cons, List.map_nil, List.getLast?_concat]
      rw [show 0 + m + 1 = m + 1 by omega, pct_self (Nat.succ_ne_zero m)]

/-- Witness for the amended C2 theorem: a 4-item all-success batch
completing in the order `[2, 0, 3, 1]` publishes a final aggregate
percent of exactly 100. -/
theorem C2_amended_witness :
    ((runBatch (fun _ => Except.ok "p") videosC2 [2, 0, 3, 1]).published.map
      (fun p => p.percent)).getLast? = some 100 :=
  (C2_amended (fun _ => Except.ok "p") videosC2 [2, 0, 3, 1]).2.2
    (by decide) (by decide) (by decide)

/-- C4: when each of the batch items is attempted exactly once (the
completion order is a permutation of the index range), every item
contributes exactly one outcome: the number of collected success
paths plus the number of collected failure messages equals the number
of requested items. -/
theorem C4_accounting (fetch : ℕ → Except String String) (videos : List VideoInfo)
    (order : List ℕ) (hperm : order.Perm (List.range videos.length)) :
    (runBatch fetch videos order).files.length
        + (runBatch fetch videos order).errors.length = videos.length := by
  rw [runBatch_spec]
  simp only
  rw [length_filterMap_eq_countP, length_filterMap_eq_countP]
  have hcongr : order.countP (fun i => (itemError videos i (fetch i)).isSome)
      = order.countP (fun i => !(okPath (fetch i)).isSome) := by
    apply List.countP_congr
    intro i _
    unfold itemError okPath
    rcases fetch i with e | p <;> simp
  rw [hcongr]
  have := List.length_eq_countP_add_countP (fun i => (okPath (fetch i)).isSome) (l := order)
  have h3 : order.length = videos.length := by
    simpa using hperm.length_eq
  rw [← h3, this]
  congr 1
  apply List.countP_congr
  intro i _
  simp

/-- Witness for C4 on the mixed success/failure batch: 3 successes
plus 1 failure account for all 4 items. -/
theorem C4_accounting_witness :
    (runBatch fetchC2 videosC2 [0, 1, 2, 3]).files.length
        + (runBatch fetchC2 videosC2 [0, 1, 2, 3]).errors.length = videosC2.length :=
  C4_accounting fetchC2 videosC2 [0, 1, 2, 3] (by decide)

/-- C3: on a non-empty batch (with packaging succeeding), the call
raises exactly when zero items succeeded; when it raises with every
item failed, the message carries the first three per-item failure
messages joined by `"; "`; when at least one item succeeded the call
returns the archive path normally, regardless of how many items
failed -- no per-item failure propagates as an exception. -/
theorem C3_batch_failure_iff (fetch : ℕ → Except String String)
    (videos : List VideoInfo) (order : List ℕ) (outputDir timestamp : String)
    (hne : videos ≠ []) :
    ((∃ e, (download_multiple_videos fetch videos order none outputDir timestamp).result
          = .error e) ↔ (runBatch fetch videos order).files = []) ∧
      ((runBatch fetch videos order).files ≠ [] →
        (download_multiple_videos fetch videos order none outputDir timestamp).result
          = .ok (outputDir ++ "/" ++ zipName timestamp)) ∧
      ((runBatch fetch videos order).files = [] →
        (runBatch fetch videos order).errors ≠ [] →
        ∃ pre,
          (download_multiple_videos fetch videos order none outputDir timestamp).result
            = .error (pre ++ String.intercalate "; "
                ((runBatch fetch videos order).errors.take 3))) := by
  have hv : videos.isEmpty = false := by
    cases videos with
    | nil => exact absurd rfl hne
    | cons a l => rfl
  unfold download_multiple_videos
  rw [hv]
  simp only [Bool.false_eq_true, if_false]
  by_cases hf : (runBatch fetch videos order).files.isEmpty
  · have hfe : (runBatch fetch videos order).files = [] := by
      simpa [List.isEmpty_iff] using hf
    rw [if_pos hf]
    refine ⟨⟨fun _ => hfe, fun _ => ⟨_, rfl⟩⟩, fun hc => absurd hfe hc, ?_⟩
    intro _ herr
    have herrB : (runBatch fetch videos order).errors.isEmpty = false := by
      cases herrs : (runBatch fetch videos order).errors with
      | nil => exact absurd herrs herr
      | cons a l => simp [herrs]
    refine ⟨"Error in batch download: " ++
      ("No videos were successfully downloaded" ++ ". Errors: "), ?_⟩
    unfold noSuccessMsg
    rw [herrB]
    simp only [Bool.false_eq_true, if_false]
    rw [String.append_assoc, String.append_assoc]
  · have hfe : (runBatch fetch videos order).files ≠ [] := by
      intro hc
      rw [hc] at hf
      exact hf rfl
    rw [if_neg hf]
    refine ⟨⟨?_, fun hc => absurd hc hfe⟩, fun _ => rfl, fun hc => absurd hc hfe⟩
    rintro ⟨e, he⟩
    cases he

/-- Witness for C3 on the mixed batch (three successes, one failure):
the call returns the archive path normally. -/
theorem C3_witness :
    (download_multiple_videos fetchC2 videosC2 [0, 1, 2, 3] none
        "downloads" "20250101_120000").result
      = .ok ("downloads" ++ "/" ++ zipName "20250101_120000") :=
  (C3_batch_failure_iff fetchC2 videosC2 [0, 1, 2, 3] "downloads" "20250101_120000"
    (by decide)).2.1 (by decide)

/-- C7: for every non-empty batch (so the per-batch temp directory is
created) and every outcome -- all items succeed, some fail, all fail,
or packaging itself raises -- the temp directory no longer exists
when the call ends, while on a successful return the archive, written
outside the temp directory, does exist. -/
theorem C7_temp_cleanup (fetch : ℕ → Except String String) (videos : List VideoInfo)
    (order : List ℕ) (zipErr : Option String) (outputDir timestamp : String)
    (hne : videos ≠ []) :
    (download_multiple_videos fetch videos order zipErr outputDir timestamp).tempCreated
        = true ∧
      (download_multiple_videos fetch videos order zipErr outputDir timestamp).tempExistsAtEnd
        = false ∧
      (∀ p, (download_multiple_videos fetch videos order zipErr outputDir timestamp).result
          = .ok p →
        (download_multiple_videos fetch videos order zipErr outputDir timestamp).zipExistsAtEnd
          = true) := by
  have hv : videos.isEmpty = false := by
    cases videos with
    | nil => exact absurd rfl hne
    | cons a l => rfl
  unfold download_multiple_videos
  rw [hv]
  simp only [Bool.false_eq_true, if_false]
  by_cases hf : (runBatch fetch videos order).files.isEmpty
  · rw [if_pos hf]
    exact ⟨rfl, rfl, fun p hp => by cases hp⟩
  · rw [if_neg hf]
    rcases zipErr with _ | e
    · exact ⟨rfl, rfl, fun p _ => rfl⟩
    · exact ⟨rfl, rfl, fun p hp => by cases hp⟩

/-- Witness for C7 at a concrete batch where packaging raises: the
temp directory was created and is gone at the end. -/
theorem C7_witness :
    (download_multiple_videos fetchC2 videosC2 [0, 1, 2, 3] (some "disk full")
        "downloads" "ts").tempCreated = true ∧
      (download_multiple_videos fetchC2 videosC2 [0, 1, 2, 3] (some "disk full")
        "downloads" "ts").tempExistsAtEnd = false :=
  ⟨(C7_temp_cleanup fetchC2 videosC2 [0, 1, 2, 3] (some "disk full") "downloads" "ts"
      (by decide)).1,
    (C7_temp_cleanup fetchC2 videosC2 [0, 1, 2, 3] (some "disk full") "downloads" "ts"
      (by decide)).2.1⟩

/-- C5: when selection/filtering leaves exactly one item, the
playlist handler calls the single-item fetcher and returns its path
directly, never invoking the packager; the packager (which alone
produces the `playlist_<timestamp>.zip` archive) is invoked exactly
when at least two items remain. -/
theorem C5_single_bypasses_packager (fetchSingle : VideoInfo → Except String String)
    (fetch : ℕ → Except String String) (order : List ℕ) (zipErr : Option String)
    (outputDir timestamp : String) (videos : List VideoInfo) (sel : List ℕ)
    (v : VideoInfo) :
    (selectVideos videos sel = [v] →
      handle_playlist fetchSingle fetch order zipErr outputDir timestamp videos sel
        = ⟨false, fetchSingle v⟩) ∧
      ((handle_playlist fetchSingle fetch order zipErr outputDir timestamp
          videos sel).usedPackager = true
        ↔ 2 ≤ (selectVideos videos sel).length) := by
  rcases hs : selectVideos videos sel with _ | ⟨x, _ | ⟨y, rest⟩⟩
  · refine ⟨fun hc => ?_, ?_⟩
    · cases hc
    · unfold handle_playlist
      rw [hs]
      simp
  · refine ⟨fun hx => ?_, ?_⟩
    · have hxv : x = v := by injection hx
      unfold handle_playlist
      rw [hs, hxv]
    · unfold handle_playlist
      rw [hs]
      simp
  · refine ⟨fun hc => ?_, ?_⟩
    · simp at hc
    · unfold handle_playlist
      rw [hs]
      simp

/-- Witness for C5: selecting index 2 out of the 4-item playlist
leaves one item; the handler returns its path with the packager flag
unset. -/
theorem C5_witness :
    handle_playlist fetchSingleW fetchC2 [0] none "downloads" "ts" videosC2 [2]
        = ⟨false, Except.ok "C"⟩ ∧
      (handle_playlist fetchSingleW fetchC2 [0] none "downloads" "ts"
        videosC2 [2]).usedPackager = false := by
  have h := (C5_single_bypasses_packager fetchSingleW fetchC2 [0] none "downloads" "ts"
    videosC2 [2] ⟨some "c", some "C"⟩).1 (by decide)
  rw [h]
  exact ⟨rfl, rfl⟩

theorem create_zip_foldl (pathExists : MediaPath → Bool) (file_paths : List MediaPath) :
    ∀ acc, file_paths.foldl
        (fun entries p => if pathExists p then entries ++ [basename p] else entries) acc
      = acc ++ (file_paths.filter pathExists).map basename := by
  induction file_paths with
  | nil => intro acc; simp
  | cons p rest ih =>
    intro acc
    by_cases hp : pathExists p
    · simp [List.filter_cons, hp, ih]
    · simp [List.filter_cons, hp, ih]

/-- C8: bundling adds one flat entry (base name only) per input path
that still exists, in input order, skipping missing paths without
failing; in particular for a list of N existing files the archive has
exactly N entries whose names are the base names of the inputs. -/
theorem C8_zip_flat_entries (pathExists : MediaPath → Bool)
    (file_paths : List MediaPath) :
    create_zip_file pathExists file_paths
        = (file_paths.filter pathExists).map basename ∧
      (create_zip_file pathExists file_paths).length
        = (file_paths.filter pathExists).length ∧
      ((∀ p ∈ file_paths, pathExists p) →
        create_zip_file pathExists file_paths = file_paths.map basename ∧
          (create_zip_file pathExists file_paths).length = file_paths.length) := by
  have h : create_zip_file pathExists file_paths
      = (file_paths.filter pathExists).map basename := by
    unfold create_zip_file
    rw [create_zip_foldl]
    simp
  refine ⟨h, by rw [h, List.length_map], fun hall => ?_⟩
  have hfil : file_paths.filter pathExists = file_paths :=
    List.filter_eq_self.mpr hall
  rw [h, hfil]
  exact ⟨rfl, List.length_map _ _⟩

/-- Witness for C8: two existing files bundle to exactly their two
base names, with the temp directory structure absent. -/
theorem C8_witness :
    create_zip_file (fun _ => true)
        [⟨["tmp", "batch1"], "a.mp4"⟩, ⟨["tmp", "batch2"], "b.mp4"⟩]
      = ["a.mp4", "b.mp4"] ∧
      (create_zip_file (fun _ => true)
        [⟨["tmp", "batch1"], "a.mp4"⟩, ⟨["tmp", "batch2"], "b.mp4"⟩]).length = 2 := by
  have h := (C8_zip_flat_entries (fun _ => true)
    [⟨["tmp", "batch1"], "a.mp4"⟩, ⟨["tmp", "batch2"], "b.mp4"⟩]).2.2
    (by intro p _; rfl)
  exact ⟨by rw [h.1]; rfl, by rw [h.2]; rfl⟩

/-- C9: exactly one mode is active per call and the inactive mode
parameter has no influence: two video-mode calls differing only in
the audio-format argument produce identical results, two audio-mode
calls differing only in the video-quality argument produce identical
results, every video-mode success has `extractaudio` unset and the
mkv merge set, and every audio-mode success extracts audio with the
requested codec and no merge container. -/
theorem C9_mode_independence (af af2 vq vq2 : Option String) (tmpl : String)
    (hasHook : Bool) (env : FsEnv) :
    get_download_options "video" af vq tmpl hasHook env
        = get_download_options "video" af2 vq tmpl hasHook env ∧
      get_download_options "audio" af vq tmpl hasHook env
        = get_download_options "audio" af vq2 tmpl hasHook env ∧
      (∀ opts, get_download_options "video" af vq tmpl hasHook env = .ok opts →
        opts.extractaudio = false ∧ opts.mergeOutputFormat = some "mkv") ∧
      (∀ opts, get_download_options "audio" af vq tmpl hasHook env = .ok opts →
        opts.extractaudio = true ∧ opts.mergeOutputFormat = none ∧
          opts.extractAudioCodec = af) := by
  refine ⟨rfl, rfl, ?_, ?_⟩
  · intro opts h
    unfold get_download_options at h
    rw [if_neg (by decide : ¬ ((!(supported_formats.contains "video")) = true))] at h
    rw [if_neg (show ¬ (("video" : String) = "audio" ∧ audioFormatInvalid af = true) from
      fun hc => absurd hc.1 (by decide))] at h
    rw [if_pos (rfl : ("video" : String) = "video")] at h
    by_cases hq : vq = none ∨ vq = some "best"
    · rw [if_pos hq] at h
      injection h with h2
      rw [← h2]
      exact ⟨rfl, rfl⟩
    · rw [if_neg hq] at h
      rcases hp : parseQualityHeight (optionStr vq) with _ | n
      · rw [hp] at h
        cases h
      · rw [hp] at h
        injection h with h2
        rw [← h2]
        exact ⟨rfl, rfl⟩
  · intro opts h
    unfold get_download_options at h
    rw [if_neg (by decide : ¬ ((!(supported_formats.contains "audio")) = true))] at h
    have ha : audioFormatInvalid af = false := by
      cases hb : audioFormatInvalid af
      · rfl
      · rw [if_pos ⟨rfl, hb⟩] at h
        cases h
    rw [if_neg (show ¬ (("audio" : String) = "audio" ∧ audioFormatInvalid af = true) from
      fun hc => by rw [ha] at hc; exact Bool.false_ne_true hc.2)] at h
    rw [if_neg (by decide : ¬ (("audio" : String) = "video"))] at h
    injection h with h2
    rw [← h2]
    exact ⟨rfl, rfl, rfl⟩

/-- Witness for C9: in video mode, changing the audio format from mp3
to wav changes nothing, and the concrete produced option set does not
extract audio and merges into mkv. -/
theorem C9_witness :
    (get_download_options "video" (some "mp3") (some "720p") "out" true envW
        = get_download_options "video" (some "wav") (some "720p") "out" true envW) ∧
      (∃ opts, get_download_options "video" (some "mp3") (some "720p") "out" true envW
          = .ok opts ∧ opts.extractaudio = false ∧ opts.mergeOutputFormat = some "mkv") := by
  refine ⟨(C9_mode_independence (some "mp3") (some "wav") (some "720p") (some "720p")
    "out" true envW).1, ?_⟩
  obtain ⟨opts, hopts⟩ : ∃ opts,
      get_download_options "video" (some "mp3") (some "720p") "out" true envW
        = .ok opts := ⟨_, rfl⟩
  exact ⟨opts, hopts,
    (C9_mode_independence (some "mp3") (some "wav") (some "720p") (some "720p")
      "out" true envW).2.2.1 opts hopts⟩

end YD

